import Mathlib

/-
  Verification of the qvec generic-vector container
  (repository: c-generic-vector; driver: src/code/c-generic-vector/main.c).

  The public container operations (qvec_new, qvec_at, qvec_pop, qvec_free)
  are declared in qvec.h, which is not part of the available sources; they
  are therefore modelled from the specification's contracts (sections 3-7
  of the design document).  The driver program main.c is available and is
  embedded directly.
-/

namespace Qvec

/-- Error conditions the specification assigns to the container operations. -/
inductive QvecError where
  | AllocationFailure
  | IndexOutOfBounds
  | EmptyContainer
  | UseAfterRelease
deriving DecidableEq, Repr

/-- Modelled from the spec: the Vector instance (data model, section 3).
`length` counts the live elements, `capacity` the allocated slots, and
`storage` is the backing block — `none` models a null/absent block; when
present it holds one value per allocated slot, of which only the first
`length` are live (slots beyond `length` are unspecified and never read). -/
structure QVec (T : Type) where
  length : Nat
  capacity : Nat
  storage : Option (List T)
deriving DecidableEq, Repr

/-- Elements of the backing block, with an absent block reading as empty. -/
def QVec.liveList {T : Type} (v : QVec T) : List T :=
  v.storage.getD []

/-- The data-model invariants of section 3: `length ≤ capacity`, the
storage block is present exactly when `capacity > 0`, and the block holds
exactly `capacity` slots. -/
def QVec.WF {T : Type} (v : QVec T) : Prop :=
  v.length ≤ v.capacity ∧
  (v.storage.isSome = true ↔ 0 < v.capacity) ∧
  v.liveList.length = v.capacity

instance {T : Type} (v : QVec T) : Decidable v.WF := by
  unfold QVec.WF
  infer_instance

/-- Modelled from the spec: construction (section 4.1) — `qvec_new` builds
a vector from an ordered finite sequence of values of one type `T`, with
`length = capacity =` the count of values and the storage laid out in the
supplied order; the empty sequence yields `length = capacity = 0` with
storage absent. -/
def qvec_new {T : Type} (vals : List T) : QVec T :=
  { length := vals.length
    capacity := vals.length
    storage := if vals.isEmpty then none else some vals }

/-- Modelled from the spec: indexed read through the accessor (section 4.2)
— valid range `0 ≤ i < length`; out of range fails with IndexOutOfBounds. -/
def qvec_at_read {T : Type} (v : QVec T) (i : Int) : Except QvecError T :=
  if 0 ≤ i ∧ i < (v.length : Int) then
    match v.liveList[i.toNat]? with
    | some x => Except.ok x
    | none => Except.error QvecError.IndexOutOfBounds
  else
    Except.error QvecError.IndexOutOfBounds

/-- Modelled from the spec: in-place assignment through the accessor
(section 4.2) — replaces the element at a valid position `i`, changing
neither `length` nor `capacity`; out of range fails with IndexOutOfBounds. -/
def qvec_at_set {T : Type} (v : QVec T) (i : Int) (x : T) : Except QvecError (QVec T) :=
  if 0 ≤ i ∧ i < (v.length : Int) then
    Except.ok { v with storage := v.storage.map (fun l => l.set i.toNat x) }
  else
    Except.error QvecError.IndexOutOfBounds

/-- Modelled from the spec: pop (section 4.3) — removes and returns the
element at position `length - 1`, decrementing `length`; the capacity is
not reduced and the vacated slot is left in place (unspecified, never
read); pop on an empty container fails with EmptyContainer. -/
def qvec_pop {T : Type} (v : QVec T) : Except QvecError (T × QVec T) :=
  if 0 < v.length then
    match v.liveList[v.length - 1]? with
    | some x => Except.ok (x, { v with length := v.length - 1 })
    | none => Except.error QvecError.EmptyContainer
  else
    Except.error QvecError.EmptyContainer

/-- Modelled from the spec: release (section 4.5) — frees the backing
storage and resets the instance to the empty/inert state
(`length = capacity = 0`, storage absent). -/
def qvec_free {T : Type} (_v : QVec T) : QVec T :=
  { length := 0, capacity := 0, storage := none }

/-- Pop performed `n` times in succession, collecting the removed values
in removal order; fails as soon as one pop fails. -/
def qvec_popN {T : Type} : Nat → QVec T → Except QvecError (List T × QVec T)
  | 0, v => Except.ok ([], v)
  | n + 1, v =>
    match qvec_pop v with
    | Except.ok (x, w) =>
      match qvec_popN n w with
      | Except.ok (xs, u) => Except.ok (x :: xs, u)
      | Except.error e => Except.error e
    | Except.error e => Except.error e

/-
  The driver program, embedded from src/code/c-generic-vector/main.c.
-/

/-- The two-field record type declared in main.c (`struct { int x, y; }`). -/
structure Tuple where
  x : Int
  y : Int
deriving DecidableEq, Repr

/-- The string vector of main.c: `qvec_new(string, "Who", "are", "you?")`. -/
def sv0 : QVec String := qvec_new ["Who", "are", "you?"]

/-- The integer vector of main.c: `qvec_new(int, 1, 2, 3, 4)`. -/
def iv0 : QVec Int := qvec_new [1, 2, 3, 4]

/-- The tuple vector of main.c:
`qvec_new(Tuple, { .x = 0, .y = 1 }, { 4, 2 }, { 5, 4 })`. -/
def tv0 : QVec Tuple := qvec_new [⟨0, 1⟩, ⟨4, 2⟩, ⟨5, 4⟩]

/-- One public container operation as invoked by a caller, used to record
the operation traces of main.c per vector instance. -/
inductive QOp (T : Type) where
  | print
  | atRead (i : Int)
  | atWrite (i : Int) (x : T)
  | pop
  | release

/-- Whether an operation is the release operation. -/
def QOp.isRelease {T : Type} : QOp T → Bool
  | QOp.release => true
  | _ => false

/-- Operations main.c performs on the string vector `sv`, in program
order: print, overwrite index 2, print, free. -/
def svOps : List (QOp String) :=
  [QOp.print, QOp.atWrite 2 "we?", QOp.print, QOp.release]

/-- Operations main.c performs on the integer vector `iv`, in program
order: print, pop, free. -/
def ivOps : List (QOp Int) :=
  [QOp.print, QOp.pop, QOp.release]

/-- Operations main.c performs on the tuple vector `tv`, in program
order: read index 1, read index 2, free. -/
def tvOps : List (QOp Tuple) :=
  [QOp.atRead 1, QOp.atRead 2, QOp.release]

/-- A trace releases its vector exactly once, the release is the last
operation, and no operation follows a release. -/
def releaseOnceAndLast {T : Type} (ops : List (QOp T)) : Prop :=
  (ops.filter QOp.isRelease).length = 1 ∧
  ops.getLast?.map QOp.isRelease = some true ∧
  (ops.dropWhile (fun o => !o.isRelease)).length = 1

/-
  Basic facts about the embedded operations.
-/

theorem qvec_new_storage_of_ne_nil {T : Type} (S : List T) (hS : S ≠ []) :
    (qvec_new S).storage = some S := by
  simp [qvec_new, hS]

theorem qvec_new_liveList_of_ne_nil {T : Type} (S : List T) (hS : S ≠ []) :
    (qvec_new S).liveList = S := by
  simp [QVec.liveList, qvec_new_storage_of_ne_nil S hS]

theorem qvec_at_read_of_lt {T : Type} (v : QVec T) (i : Nat) (h : i < v.length) :
    qvec_at_read v (i : Int) =
      match v.liveList[i]? with
      | some x => Except.ok x
      | none => Except.error QvecError.IndexOutOfBounds := by
  unfold qvec_at_read
  rw [if_pos ⟨Int.ofNat_nonneg i, by exact_mod_cast h⟩]
  simp

/-- C1: for every non-empty sequence `S` over one element type `T`,
`qvec_new S` has `length = capacity = |S|` and reading any valid index `i`
through the accessor yields `S[i]`, the value supplied at that position. -/
theorem qvec_new_correct (T : Type) (S : List T) (hS : S ≠ []) :
    (qvec_new S).length = S.length ∧
    (qvec_new S).capacity = S.length ∧
    ∀ (i : Nat) (h : i < S.length),
      qvec_at_read (qvec_new S) (i : Int) = Except.ok (S.get ⟨i, h⟩) := by
  refine ⟨rfl, rfl, ?_⟩
  intro i h
  rw [qvec_at_read_of_lt (qvec_new S) i h, qvec_new_liveList_of_ne_nil S hS,
    List.getElem?_eq_getElem h]
  rfl

/-- C1 witness: the concrete record sequence of the driver,
`[(0,1), (4,2), (5,4)]`: length and capacity are 3, the element at index 1
is `(4,2)` (first field 4) and at index 2 is `(5,4)` (first field 5). -/
theorem qvec_new_correct_witness :
    ([(⟨0, 1⟩ : Tuple), ⟨4, 2⟩, ⟨5, 4⟩] ≠ ([] : List Tuple)) ∧
    (tv0.length = 3 ∧ tv0.capacity = 3 ∧
      ∀ (i : Nat) (h : i < ([(⟨0, 1⟩ : Tuple), ⟨4, 2⟩, ⟨5, 4⟩] : List Tuple).length),
        qvec_at_read tv0 (i : Int) =
          Except.ok (([(⟨0, 1⟩ : Tuple), ⟨4, 2⟩, ⟨5, 4⟩] : List Tuple).get ⟨i, h⟩)) ∧
    qvec_at_read tv0 1 = Except.ok ⟨4, 2⟩ ∧
    qvec_at_read tv0 2 = Except.ok ⟨5, 4⟩ := by
  refine ⟨by decide, qvec_new_correct Tuple [⟨0, 1⟩, ⟨4, 2⟩, ⟨5, 4⟩] (by decide), rfl, rfl⟩

theorem qvec_pop_eq_ok {T : Type} (v : QVec T) (hWF : v.WF) (h : 0 < v.length) :
    ∃ x, v.liveList[v.length - 1]? = some x ∧
      qvec_pop v = Except.ok (x, { v with length := v.length - 1 }) := by
  have hlen : v.length - 1 < v.liveList.length := by
    have h1 := hWF.1
    have h2 := hWF.2.2
    omega
  refine ⟨v.liveList.get ⟨v.length - 1, hlen⟩, ?_, ?_⟩
  · rw [List.getElem?_eq_getElem hlen]
    rfl
  · unfold qvec_pop
    rw [if_pos h, List.getElem?_eq_getElem hlen]
    rfl

theorem qvec_popN_drain {T : Type} (n : Nat) :
    ∀ v : QVec T, v.WF → v.length = n →
      qvec_popN n v = Except.ok ((v.liveList.take n).reverse, { v with length := 0 }) := by
  induction n with
  | zero =>
    intro v hWF hlen
    cases v with
    | mk len cap s =>
      simp only at hlen
      subst hlen
      rfl
  | succ n ih =>
    intro v hWF hlen
    have hpos : 0 < v.length := by omega
    obtain ⟨x, hx, hpop⟩ := qvec_pop_eq_ok v hWF hpos
    have hWFw : QVec.WF { v with length := v.length - 1 } := by
      refine ⟨?_, hWF.2.1, hWF.2.2⟩
      have h1 := hWF.1
      show v.length - 1 ≤ v.capacity
      omega
    have hrec : qvec_popN n { v with length := v.length - 1 } =
        Except.ok ((v.liveList.take n).reverse, { v with length := 0 }) :=
      ih { v with length := v.length - 1 } hWFw (by show v.length - 1 = n; omega)
    have hx' : v.liveList[n]? = some x := by
      rw [← hx]
      congr 1
      omega
    unfold qvec_popN
    simp only [hpop, hrec]
    simp [List.take_succ, hx']

/-- C2: on a well-formed vector of length `n ≥ 1`, pop returns the value
at position `n - 1` (the value the accessor reads there) and leaves length
`n - 1` without touching capacity; popping `n` times in succession empties
the vector (length 0) and one further pop fails with EmptyContainer. -/
theorem qvec_pop_spec (T : Type) (v : QVec T) (hWF : v.WF) (h : 1 ≤ v.length) :
    (∃ x w, qvec_pop v = Except.ok (x, w) ∧
      qvec_at_read v ((v.length - 1 : Nat) : Int) = Except.ok x ∧
      w.length = v.length - 1 ∧ w.capacity = v.capacity) ∧
    (∃ xs w, qvec_popN v.length v = Except.ok (xs, w) ∧ w.length = 0 ∧
      qvec_pop w = Except.error QvecError.EmptyContainer) := by
  obtain ⟨x, hx, hpop⟩ := qvec_pop_eq_ok v hWF (by omega)
  constructor
  · refine ⟨x, _, hpop, ?_, rfl, rfl⟩
    rw [qvec_at_read_of_lt v (v.length - 1) (by omega), hx]
  · refine ⟨_, _, qvec_popN_drain v.length v hWF rfl, rfl, ?_⟩
    rfl

/-- C2 witness: the driver's integer vector `[1, 2, 3, 4]`: it is
well-formed of length 4 ≥ 1, four successive pops return `4, 3, 2, 1`
leaving length 0, and a fifth pop fails with EmptyContainer. -/
theorem qvec_pop_spec_witness :
    iv0.WF ∧ 1 ≤ iv0.length ∧
    qvec_popN 4 iv0 =
      Except.ok ([4, 3, 2, 1],
        { length := 0, capacity := 4, storage := some [1, 2, 3, 4] }) ∧
    ((∃ x w, qvec_pop iv0 = Except.ok (x, w) ∧
       qvec_at_read iv0 ((iv0.length - 1 : Nat) : Int) = Except.ok x ∧
       w.length = iv0.length - 1 ∧ w.capacity = iv0.capacity) ∧
     (∃ xs w, qvec_popN iv0.length iv0 = Except.ok (xs, w) ∧ w.length = 0 ∧
       qvec_pop w = Except.error QvecError.EmptyContainer)) :=
  ⟨by decide, by decide, rfl, qvec_pop_spec Int iv0 (by decide) (by decide)⟩

theorem QVec.storage_eq_some {T : Type} (v : QVec T) (hWF : v.WF) (h : 0 < v.length) :
    ∃ l, v.storage = some l ∧ l.length = v.capacity := by
  have hcap : 0 < v.capacity := by
    have := hWF.1
    omega
  cases hs : v.storage with
  | none =>
    have := hWF.2.1.mpr hcap
    rw [hs] at this
    simp at this
  | some l =>
    refine ⟨l, rfl, ?_⟩
    have := hWF.2.2
    rw [QVec.liveList, hs] at this
    simpa using this

/-- C3: on a well-formed vector, writing `x` through the accessor at any
valid index `i` (`0 ≤ i < length`) succeeds, and immediately reading the
same index returns `x`; the write changes neither `length` nor
`capacity`. -/
theorem qvec_at_roundtrip (T : Type) (v : QVec T) (i : Int) (x : T)
    (hWF : v.WF) (h0 : 0 ≤ i) (h1 : i < (v.length : Int)) :
    ∃ w, qvec_at_set v i x = Except.ok w ∧
      qvec_at_read w i = Except.ok x ∧
      w.length = v.length ∧ w.capacity = v.capacity := by
  obtain ⟨l, hl, hll⟩ := QVec.storage_eq_some v hWF (by omega)
  have hset : qvec_at_set v i x =
      Except.ok { v with storage := some (l.set i.toNat x) } := by
    unfold qvec_at_set
    rw [if_pos ⟨h0, h1⟩, hl]
    rfl
  refine ⟨_, hset, ?_, rfl, rfl⟩
  unfold qvec_at_read
  rw [if_pos ⟨h0, h1⟩]
  have hlive : QVec.liveList { v with storage := some (l.set i.toNat x) } =
      l.set i.toNat x := rfl
  rw [hlive, List.getElem?_set_eq_of_lt x (by have := hWF.1; omega : i.toNat < l.length)]

/-- C3 witness: on the driver's integer vector `[1, 2, 3, 4]`, writing 9
at index 2 succeeds and reading index 2 back gives 9, with length and
capacity still 4. -/
theorem qvec_at_roundtrip_witness :
    iv0.WF ∧ (0 : Int) ≤ 2 ∧ (2 : Int) < (iv0.length : Int) ∧
    (∃ w, qvec_at_set iv0 2 9 = Except.ok w ∧
      qvec_at_read w 2 = Except.ok 9 ∧
      w.length = iv0.length ∧ w.capacity = iv0.capacity) :=
  ⟨by decide, by decide, by decide, qvec_at_roundtrip Int iv0 2 9 (by decide) (by decide) (by decide)⟩

/-- C4: on a well-formed vector, writing through the accessor at a valid
index `i` leaves the value read at every other valid index `j ≠ i`
unchanged. -/
theorem qvec_at_set_frame (T : Type) (v : QVec T) (i j : Int) (x : T)
    (hWF : v.WF) (hi0 : 0 ≤ i) (hi1 : i < (v.length : Int))
    (hj0 : 0 ≤ j) (hj1 : j < (v.length : Int)) (hne : j ≠ i) :
    ∃ w, qvec_at_set v i x = Except.ok w ∧
      qvec_at_read w j = qvec_at_read v j := by
  obtain ⟨l, hl, hll⟩ := QVec.storage_eq_some v hWF (by omega)
  have hset : qvec_at_set v i x =
      Except.ok { v with storage := some (l.set i.toNat x) } := by
    unfold qvec_at_set
    rw [if_pos ⟨hi0, hi1⟩, hl]
    rfl
  refine ⟨_, hset, ?_⟩
  unfold qvec_at_read
  rw [if_pos ⟨hj0, hj1⟩, if_pos ⟨hj0, hj1⟩]
  have hlive : QVec.liveList { v with storage := some (l.set i.toNat x) } =
      l.set i.toNat x := rfl
  have hlivev : v.liveList = l := by
    rw [QVec.liveList, hl]
    rfl
  rw [hlive, hlivev, List.getElem?_set_ne (by omega : i.toNat ≠ j.toNat)]

/-- C4 witness: the driver's string scenario — on the vector built from
`["Who", "are", "you?"]`, overwriting index 2 with `"we?"` succeeds,
after it `at(2)` reads `"we?"` while `at(0)` still reads `"Who"`. -/
theorem qvec_at_set_frame_witness :
    sv0.WF ∧ (0 : Int) ≤ 2 ∧ (2 : Int) < (sv0.length : Int) ∧
    (0 : Int) ≤ 0 ∧ (0 : Int) < (sv0.length : Int) ∧ (0 : Int) ≠ 2 ∧
    (∃ w, qvec_at_set sv0 2 "we?" = Except.ok w ∧
      qvec_at_read w 0 = qvec_at_read sv0 0) ∧
    qvec_at_set sv0 2 "we?" =
      Except.ok (qvec_new ["Who", "are", "we?"]) ∧
    qvec_at_read (qvec_new ["Who", "are", "we?"]) 2 = Except.ok "we?" ∧
    qvec_at_read sv0 0 = Except.ok "Who" :=
  ⟨⟨Nat.le_refl 3, by simp [sv0, qvec_new], rfl⟩, by decide, by decide, by decide,
    by decide, by decide,
    qvec_at_set_frame String sv0 2 0 "we?"
      ⟨Nat.le_refl 3, by simp [sv0, qvec_new], rfl⟩
      (by decide) (by decide) (by decide) (by decide) (by decide),
    rfl, rfl, rfl⟩

/-- C5: for every vector and every index outside the valid range
(`i < 0` or `i ≥ length`), both the accessor read and the accessor write
fail with IndexOutOfBounds (in this pure model an error returns no new
state, so the failed call leaves the container value untouched). -/
theorem qvec_at_out_of_bounds (T : Type) (v : QVec T) (i : Int) (x : T)
    (h : i < 0 ∨ (v.length : Int) ≤ i) :
    qvec_at_read v i = Except.error QvecError.IndexOutOfBounds ∧
    qvec_at_set v i x = Except.error QvecError.IndexOutOfBounds := by
  have hc : ¬(0 ≤ i ∧ i < (v.length : Int)) := by omega
  constructor
  · unfold qvec_at_read
    rw [if_neg hc]
  · unfold qvec_at_set
    rw [if_neg hc]

/-- C5 witness: on the driver's integer vector of length 4, index 4 is
out of range and both accessor read and write fail with
IndexOutOfBounds; likewise index -1. -/
theorem qvec_at_out_of_bounds_witness :
    ((4 : Int) < 0 ∨ (iv0.length : Int) ≤ 4) ∧
    (qvec_at_read iv0 4 = Except.error QvecError.IndexOutOfBounds ∧
      qvec_at_set iv0 4 0 = Except.error QvecError.IndexOutOfBounds) ∧
    ((-1 : Int) < 0 ∨ (iv0.length : Int) ≤ -1) ∧
    (qvec_at_read iv0 (-1) = Except.error QvecError.IndexOutOfBounds ∧
      qvec_at_set iv0 (-1) 0 = Except.error QvecError.IndexOutOfBounds) :=
  ⟨by decide, qvec_at_out_of_bounds Int iv0 4 0 (by decide),
    by decide, qvec_at_out_of_bounds Int iv0 (-1) 0 (by decide)⟩

/-- C6: release resets the instance to the empty/inert state —
`length = capacity = 0` and storage absent — and release is idempotent:
releasing an already-released instance is the identity on its state, so
`release ∘ release = release`. -/
theorem qvec_free_idempotent (T : Type) (v : QVec T) :
    (qvec_free v).length = 0 ∧
    (qvec_free v).capacity = 0 ∧
    (qvec_free v).storage = none ∧
    qvec_free (qvec_free v) = qvec_free v :=
  ⟨rfl, rfl, rfl, rfl⟩

/-- C7: the data-model invariants hold in every reachable state:
construction establishes well-formedness (`length ≤ capacity`, storage
present exactly when `capacity > 0`, block of exactly `capacity` slots),
each successful accessor write and each successful pop preserve it
without changing capacity (the read is pure and changes nothing), and
release yields the well-formed empty state; so capacity never decreases
except through release. -/
theorem qvec_invariants (T : Type) (v : QVec T) (hWF : v.WF) :
    (∀ S : List T, (qvec_new S).WF) ∧
    (∀ (i : Int) (x : T) (w : QVec T), qvec_at_set v i x = Except.ok w →
      w.WF ∧ w.length = v.length ∧ w.capacity = v.capacity) ∧
    (∀ (x : T) (w : QVec T), qvec_pop v = Except.ok (x, w) →
      w.WF ∧ w.capacity = v.capacity) ∧
    (qvec_free v).WF := by
  refine ⟨?_, ?_, ?_, ?_⟩
  · intro S
    by_cases hS : S = []
    · subst hS
      exact ⟨Nat.le_refl 0, by simp [qvec_new], rfl⟩
    · refine ⟨Nat.le_refl S.length, ?_, ?_⟩
      · rw [qvec_new_storage_of_ne_nil S hS]
        simpa using List.length_pos.mpr hS
      · rw [qvec_new_liveList_of_ne_nil S hS]
        rfl
  · intro i x w hok
    unfold qvec_at_set at hok
    by_cases hc : 0 ≤ i ∧ i < (v.length : Int)
    · rw [if_pos hc] at hok
      simp only [Except.ok.injEq] at hok
      subst hok
      refine ⟨⟨hWF.1, ?_, ?_⟩, rfl, rfl⟩
      · show (v.storage.map fun l => l.set i.toNat x).isSome = true ↔ 0 < v.capacity
        cases hs : v.storage with
        | none =>
          have h21 := hWF.2.1
          rw [hs] at h21
          simpa using h21
        | some l =>
          have h21 := hWF.2.1
          rw [hs] at h21
          simpa using h21
      · show ((v.storage.map fun l => l.set i.toNat x).getD []).length = v.capacity
        cases hs : v.storage with
        | none =>
          have h22 := hWF.2.2
          rw [QVec.liveList, hs] at h22
          simpa using h22
        | some l =>
          have h22 := hWF.2.2
          rw [QVec.liveList, hs] at h22
          simpa using h22
    · rw [if_neg hc] at hok
      cases hok
  · intro x w hok
    unfold qvec_pop at hok
    by_cases hp : 0 < v.length
    · rw [if_pos hp] at hok
      cases hx : v.liveList[v.length - 1]? with
      | none =>
        rw [hx] at hok
        cases hok
      | some y =>
        rw [hx] at hok
        cases hok
        refine ⟨⟨?_, hWF.2.1, hWF.2.2⟩, rfl⟩
        have := hWF.1
        show v.length - 1 ≤ v.capacity
        omega
    · rw [if_neg hp] at hok
      cases hok
  · exact ⟨Nat.le_refl 0, by simp [qvec_free], rfl⟩

/-- C7 witness: the driver's integer vector `[1, 2, 3, 4]` is well-formed
and the invariant-preservation facts hold of it. -/
theorem qvec_invariants_witness :
    iv0.WF ∧
    ((∀ S : List Int, (qvec_new S).WF) ∧
     (∀ (i : Int) (x : Int) (w : QVec Int), qvec_at_set iv0 i x = Except.ok w →
       w.WF ∧ w.length = iv0.length ∧ w.capacity = iv0.capacity) ∧
     (∀ (x : Int) (w : QVec Int), qvec_pop iv0 = Except.ok (x, w) →
       w.WF ∧ w.capacity = iv0.capacity) ∧
     (qvec_free iv0).WF) :=
  ⟨by decide, qvec_invariants Int iv0 (by decide)⟩

/-- C8: constructing from the empty sequence is permitted and yields
`length = capacity = 0` with storage absent; on that vector every
accessor read or write, at every index, fails with IndexOutOfBounds, and
pop fails with EmptyContainer. -/
theorem qvec_new_empty_spec (T : Type) :
    (qvec_new ([] : List T)).length = 0 ∧
    (qvec_new ([] : List T)).capacity = 0 ∧
    (qvec_new ([] : List T)).storage = none ∧
    (∀ (i : Int) (x : T),
      qvec_at_read (qvec_new ([] : List T)) i = Except.error QvecError.IndexOutOfBounds ∧
      qvec_at_set (qvec_new ([] : List T)) i x = Except.error QvecError.IndexOutOfBounds) ∧
    qvec_pop (qvec_new ([] : List T)) = Except.error QvecError.EmptyContainer := by
  refine ⟨rfl, rfl, rfl, ?_, rfl⟩
  intro i x
  have hc : ¬(0 ≤ i ∧ i < ((qvec_new ([] : List T)).length : Int)) := by
    rw [show (qvec_new ([] : List T)).length = 0 from rfl]
    omega
  constructor
  · unfold qvec_at_read
    rw [if_neg hc]
  · unfold qvec_at_set
    rw [if_neg hc]

/-- C9: every accessor call the driver makes satisfies `0 ≤ i < length`
(index 2 against the length-3 string vector; indices 1 and 2 against the
length-3 tuple vector) and its single pop is applied to the length-4
integer vector, so each of these calls succeeds — the IndexOutOfBounds
and EmptyContainer branches are unreachable in main. -/
theorem main_driver_safe :
    (sv0.length = 3 ∧ (0 : Int) ≤ 2 ∧ (2 : Int) < (sv0.length : Int) ∧
      (qvec_at_set sv0 2 "we?").isOk = true) ∧
    (iv0.length = 4 ∧ 0 < iv0.length ∧ (qvec_pop iv0).isOk = true) ∧
    (tv0.length = 3 ∧
      (0 : Int) ≤ 1 ∧ (1 : Int) < (tv0.length : Int) ∧
      (qvec_at_read tv0 1).isOk = true ∧
      (0 : Int) ≤ 2 ∧ (2 : Int) < (tv0.length : Int) ∧
      (qvec_at_read tv0 2).isOk = true) :=
  ⟨⟨rfl, by decide, by decide, rfl⟩,
   ⟨rfl, by decide, rfl⟩,
   ⟨rfl, by decide, by decide, rfl, by decide, by decide, rfl⟩⟩

/-- C10: in the driver each vector's operation trace (in program order)
performs release exactly once, as its final operation, with no operation
after the release — the UseAfterRelease condition never arises in main. -/
theorem main_release_discipline :
    releaseOnceAndLast svOps ∧ releaseOnceAndLast ivOps ∧ releaseOnceAndLast tvOps :=
  ⟨⟨rfl, rfl, rfl⟩, ⟨rfl, rfl, rfl⟩, ⟨rfl, rfl, rfl⟩⟩

end Qvec
